import Mathlib

/-!
Shallow embedding of the Haystack sidecar lifecycle manager
(`Haystack` class: version gate, acquisition pipeline, download protocol,
status model, process supervisor) together with theorems checking the
specification's claims against it.

Strings from the JavaScript side are modelled as `List Char`; the few
JavaScript string primitives the code uses (`replace('v','')`,
`split('.')`, `Number(...)`) are modelled explicitly below.
-/

namespace Haystack

/-! ### Version gate: `isVersionCompatible` -/

/-- JS `s.replace('v', '')` with a string pattern: removes the first
occurrence of the character (not only a leading one). -/
def removeFirst (c : Char) : List Char → List Char
  | [] => []
  | x :: xs => if x = c then xs else x :: removeFirst c xs

/-- JS `s.split('.')` on a one-character separator: `""` yields `[""]`,
separators at the ends yield empty fields. -/
def splitOnChar (c : Char) : List Char → List (List Char)
  | [] => [[]]
  | x :: xs =>
    let r := splitOnChar c xs
    if x = c then [] :: r
    else
      match r with
      | [] => [[x]]
      | y :: ys => (x :: y) :: ys

/-- Result of JS `Number(string)`: `NaN`, an infinity, or a finite value.
A finite value is the exact rational `num / 10^den10`, kept with common
factors of ten cancelled (see `mkVal`) so that structural equality is
numeric equality. IEEE-754 rounding of the value is not modelled — it only
diverges beyond 2^53 or near the double overflow threshold, and every
comparison in the claims involves only the NaN/number classification and
small integer components, where doubles are exact. -/
inductive JsNum
  | nan
  | posInf
  | negInf
  | val (num : Int) (den10 : Nat)
deriving DecidableEq

/-- Cancels factors of ten between the numerator and the power-of-ten
denominator, putting `num / 10^den10` into its canonical form. -/
def canonTen : Int → Nat → Int × Nat
  | n, 0 => (n, 0)
  | n, d + 1 => if n % 10 = 0 then canonTen (n / 10) d else (n, d + 1)

/-- The finite value `num / 10^den10`, canonicalized. -/
def mkVal (num : Int) (den10 : Nat) : JsNum :=
  let c := canonTen num den10
  JsNum.val c.1 c.2

/-- `10^k` as an integer. -/
def tenPow (k : Nat) : Int :=
  Int.ofNat (10 ^ k)

/-- The ECMAScript WhiteSpace and LineTerminator characters trimmed by
`Number(string)`: TAB LF VT FF CR SP NBSP ZWNBSP, the Unicode space
separators, and the line and paragraph separators. -/
def isJsWhitespace (c : Char) : Bool :=
  c.toNat = 0x9 || c.toNat = 0xa || c.toNat = 0xb || c.toNat = 0xc
    || c.toNat = 0xd || c.toNat = 0x20 || c.toNat = 0xa0
    || c.toNat = 0x1680
    || (0x2000 ≤ c.toNat && c.toNat ≤ 0x200a)
    || c.toNat = 0x2028 || c.toNat = 0x2029 || c.toNat = 0x202f
    || c.toNat = 0x205f || c.toNat = 0x3000 || c.toNat = 0xfeff

/-- Leading and trailing whitespace trimming performed by `Number(string)`. -/
def trimJsWs (l : List Char) : List Char :=
  ((l.dropWhile isJsWhitespace).reverse.dropWhile isJsWhitespace).reverse

/-- One decimal digit. -/
def decDigit? (c : Char) : Option Nat :=
  if '0' ≤ c ∧ c ≤ '9' then some (c.toNat - 48) else none

/-- One hexadecimal digit. -/
def hexDigit? (c : Char) : Option Nat :=
  if '0' ≤ c ∧ c ≤ '9' then some (c.toNat - 48)
  else if 'a' ≤ c ∧ c ≤ 'f' then some (c.toNat - 87)
  else if 'A' ≤ c ∧ c ≤ 'F' then some (c.toNat - 55)
  else none

/-- One octal digit. -/
def octDigit? (c : Char) : Option Nat :=
  if '0' ≤ c ∧ c ≤ '7' then some (c.toNat - 48) else none

/-- One binary digit. -/
def binDigit? (c : Char) : Option Nat :=
  if c = '0' ∨ c = '1' then some (c.toNat - 48) else none

/-- Value of a nonempty all-digit string in the given radix; `none` when
empty or containing a non-digit (`Number` accepts no numeric separators). -/
def digitsVal? (digit? : Char → Option Nat) (radix : Nat)
    (l : List Char) : Option Nat :=
  if l = [] then none
  else
    l.foldl (fun acc c =>
      match acc, digit? c with
      | some a, some d => some (a * radix + d)
      | _, _ => none) (some 0)

/-- Splits at the first `e`/`E`, the exponent marker. -/
def breakOnExp : List Char → List Char × Option (List Char)
  | [] => ([], none)
  | c :: cs =>
    if c = 'e' ∨ c = 'E' then ([], some cs)
    else
      let r := breakOnExp cs
      (c :: r.1, r.2)

/-- Splits at the first `.`, the decimal point. -/
def breakOnDot : List Char → List Char × Option (List Char)
  | [] => ([], none)
  | c :: cs =>
    if c = '.' then ([], some cs)
    else
      let r := breakOnDot cs
      (c :: r.1, r.2)

/-- `SignedInteger` of an exponent part: optional sign, then digits. -/
def signedInt? : List Char → Option Int
  | '+' :: rest => (digitsVal? decDigit? 10 rest).map Int.ofNat
  | '-' :: rest => (digitsVal? decDigit? 10 rest).map (fun n => -(n : Int))
  | l => (digitsVal? decDigit? 10 l).map Int.ofNat

/-- Mantissa grammar `Digits [. Digits?]` or `. Digits`, as a numerator
with a power-of-ten denominator exponent. -/
def mantissa? (l : List Char) : Option (Int × Nat) :=
  match breakOnDot l with
  | (ip, none) =>
    (digitsVal? decDigit? 10 ip).map (fun n => (Int.ofNat n, 0))
  | (ip, some fp) =>
    if ip = [] then
      (digitsVal? decDigit? 10 fp).map
        (fun f => (Int.ofNat f, fp.length))
    else if fp = [] then
      (digitsVal? decDigit? 10 ip).map (fun n => (Int.ofNat n, 0))
    else
      match digitsVal? decDigit? 10 ip, digitsVal? decDigit? 10 fp with
      | some n, some f =>
        some (Int.ofNat (n * 10 ^ fp.length + f), fp.length)
      | _, _ => none

/-- Applies a decimal exponent to a mantissa. -/
def applyExp (p : Int × Nat) (e : Int) : Int × Nat :=
  if 0 ≤ e then (p.1 * tenPow e.toNat, p.2) else (p.1, p.2 + (-e).toNat)

/-- `StrUnsignedDecimalLiteral`: `Infinity`, or a mantissa with optional
exponent; `none` is `NaN`. -/
def jsUnsigned? (l : List Char) : Option JsNum :=
  if l = "Infinity".data then some JsNum.posInf
  else
    match breakOnExp l with
    | (m, none) => (mantissa? m).map (fun p => mkVal p.1 p.2)
    | (m, some ex) =>
      match mantissa? m, signedInt? ex with
      | some p, some e =>
        let q := applyExp p e
        some (mkVal q.1 q.2)
      | _, _ => none

/-- Numeric negation, applied to a `-`-signed literal. -/
def jsNeg : JsNum → JsNum
  | JsNum.posInf => JsNum.negInf
  | JsNum.negInf => JsNum.posInf
  | JsNum.val n d => JsNum.val (-n) d
  | JsNum.nan => JsNum.nan

/-- JS `Number(s)` on a string: trim whitespace; empty means `0`; an
optional sign followed by a decimal literal or `Infinity`; unsigned
`0x`/`0o`/`0b` radix literals; anything else is `NaN`. -/
def jsNumber (l : List Char) : JsNum :=
  let t := trimJsWs l
  if t = [] then mkVal 0 0
  else
    match t with
    | '+' :: rest => (jsUnsigned? rest).getD JsNum.nan
    | '-' :: rest => jsNeg ((jsUnsigned? rest).getD JsNum.nan)
    | '0' :: x :: rest =>
      if x = 'x' ∨ x = 'X' then
        match digitsVal? hexDigit? 16 rest with
        | some n => mkVal (Int.ofNat n) 0
        | none => JsNum.nan
      else if x = 'o' ∨ x = 'O' then
        match digitsVal? octDigit? 8 rest with
        | some n => mkVal (Int.ofNat n) 0
        | none => JsNum.nan
      else if x = 'b' ∨ x = 'B' then
        match digitsVal? binDigit? 2 rest with
        | some n => mkVal (Int.ofNat n) 0
        | none => JsNum.nan
      else (jsUnsigned? t).getD JsNum.nan
    | _ => (jsUnsigned? t).getD JsNum.nan

/-- JS `a < b` on numbers: false whenever either side is `NaN` (or
`undefined`, from indexing past the end of the parts array); finite values
compare by cross-multiplying with the power-of-ten denominators. -/
def jsLt : JsNum → JsNum → Bool
  | JsNum.nan, _ => false
  | _, JsNum.nan => false
  | JsNum.posInf, _ => false
  | JsNum.negInf, JsNum.negInf => false
  | JsNum.negInf, _ => true
  | JsNum.val _ _, JsNum.negInf => false
  | JsNum.val _ _, JsNum.posInf => true
  | JsNum.val a ad, JsNum.val b bd => decide (a * tenPow bd < b * tenPow ad)

/-- JS `a > b` on numbers: the reversed comparison, with the same
`NaN`/`undefined` semantics. -/
def jsGt (a b : JsNum) : Bool := jsLt b a

/-- `currentVersion.split('.').map(Number)` after the `'v'` replacement. -/
def versionParts (s : List Char) : List JsNum :=
  (splitOnChar '.' (removeFirst 'v' s)).map jsNumber

/-- JS array indexing `parts[i]`: `undefined` past the end, which compares
like `NaN`. -/
def partAt (l : List JsNum) (i : Nat) : JsNum :=
  l.getD i JsNum.nan

/-- The `for (let i = 0; i < 3; i++)` comparison loop of
`isVersionCompatible`, with the remaining iteration count as fuel. -/
def versionLoop (cur req : List JsNum) : Nat → Nat → Bool
  | _, 0 => true
  | i, fuel + 1 =>
    if jsGt (partAt cur i) (partAt req i) then true
    else if jsLt (partAt cur i) (partAt req i) then false
    else versionLoop cur req (i + 1) fuel

/-- `isVersionCompatible(version)` of the source, with the required version
(`this.haystackVersion`) made an explicit second argument. -/
def isVersionCompatible (version required : List Char) : Bool :=
  versionLoop (versionParts version) (versionParts required) 0 3

/-- Modelled from the spec's words (for the refinement claim about the
comparison): component-wise ≥ on numeric triples, short-circuiting at the
first unequal component. -/
def specLexGe (a b c d e f : Int) : Bool :=
  if a ≠ d then decide (d < a)
  else if b ≠ e then decide (e < b)
  else decide (f ≤ c)

theorem jsLt_val (a b : Int) :
    jsLt (JsNum.val a 0) (JsNum.val b 0) = decide (a < b) := by
  simp [jsLt, tenPow]

theorem jsGt_val (a b : Int) :
    jsGt (JsNum.val a 0) (JsNum.val b 0) = decide (b < a) := by
  simp [jsGt, jsLt, tenPow]

theorem versionLoop_triple (a b c d e f : Int) :
    versionLoop [JsNum.val a 0, JsNum.val b 0, JsNum.val c 0]
      [JsNum.val d 0, JsNum.val e 0, JsNum.val f 0] 0 3 =
      specLexGe a b c d e f := by
  simp only [versionLoop, partAt, List.getD, jsGt_val, jsLt_val, specLexGe]
  by_cases h1 : d < a
  · have hne : a ≠ d := by omega
    simp [jsGt_val, jsLt_val, h1, hne]
  · by_cases h2 : a < d
    · have hne : a ≠ d := by omega
      simp [jsGt_val, jsLt_val, h1, h2, hne]
    · have h3 : a = d := by omega
      subst h3
      by_cases h4 : e < b
      · have hne : b ≠ e := by omega
        simp [jsGt_val, jsLt_val, h4, hne]
      · by_cases h5 : b < e
        · have hne : b ≠ e := by omega
          simp [jsGt_val, jsLt_val, h4, h5, hne]
        · have h6 : b = e := by omega
          subst h6
          by_cases h7 : f < c
          · have hle : f ≤ c := by omega
            simp [jsGt_val, jsLt_val, h7, hle]
          · by_cases h8 : c < f
            · have hle : ¬ f ≤ c := by omega
              simp [jsGt_val, jsLt_val, h7, h8, hle]
            · have hle : f ≤ c := by omega
              simp [jsGt_val, jsLt_val, h7, h8, hle]

theorem jsLt_nan_left (x : JsNum) : jsLt JsNum.nan x = false := by
  cases x <;> rfl

theorem jsGt_nan_left (x : JsNum) : jsGt JsNum.nan x = false := by
  cases x <;> rfl

/-- C2: the version-compatibility check strips the `'v'` prefix, parses both
sides as dotted numeric triples and compares them component-wise in order
major, minor, patch, short-circuiting at the first unequal component;
installed is compatible iff it is greater-or-equal under this ordering, as
on the three quoted examples. -/
theorem claim_C2_version_compare :
    (∀ (v r : List Char) (a b c d e f : Int),
        versionParts v = [JsNum.val a 0, JsNum.val b 0, JsNum.val c 0] →
        versionParts r = [JsNum.val d 0, JsNum.val e 0, JsNum.val f 0] →
        isVersionCompatible v r = specLexGe a b c d e f)
    ∧ isVersionCompatible "1.2.3".data "1.2.3".data = true
    ∧ isVersionCompatible "1.3.0".data "1.2.9".data = true
    ∧ isVersionCompatible "1.2.0".data "1.2.3".data = false
    ∧ isVersionCompatible "v1.3.0".data "v1.2.9".data = true := by
  refine ⟨?_, by decide, by decide, by decide, by decide⟩
  intro v r a b c d e f hv hr
  unfold isVersionCompatible
  rw [hv, hr, versionLoop_triple]

theorem claim_C2_version_compare_witness :
    versionParts "v1.3.0".data =
      [JsNum.val 1 0, JsNum.val 3 0, JsNum.val 0 0]
    ∧ versionParts "v1.2.9".data =
      [JsNum.val 1 0, JsNum.val 2 0, JsNum.val 9 0]
    ∧ isVersionCompatible "v1.3.0".data "v1.2.9".data =
        specLexGe 1 3 0 1 2 9 :=
  ⟨by decide, by decide,
    claim_C2_version_compare.1 "v1.3.0".data "v1.2.9".data 1 3 0 1 2 9
      (by decide) (by decide)⟩

/-- C10 counterexample: the claim says every version string whose first
three dot-separated components are not all numeric is accepted as
compatible with any required version, and lists the empty string as an
example; but JS `Number("")` is `0`, so the empty installed version parses
to `[0]` and is rejected against required `v1.2.3`. -/
theorem claim_C10_counterexample :
    versionParts "".data = [JsNum.val 0 0]
    ∧ isVersionCompatible "".data "v1.2.3".data = false := by
  exact ⟨by decide, by decide⟩

/-- C10 amended: a persisted version string all of whose first three parsed
components are `NaN` (e.g. `"abc"`) is accepted as compatible with any
required version; but `Number` trims whitespace and accepts signed,
exponent and radix forms, so a malformed-looking string with some numeric
leading components is compared on those components and can be rejected —
`""` and `" "` parse to `[0]` and lose against required `v1.2.3`, and
`"1.2"` loses against required `v1.5.0`, triggering reinstallation — or
accepted: `"+9.0.0"` parses to `[9, 0, 0]` and beats required `v1.2.3`. -/
theorem claim_C10_amended :
    (∀ (v r : List Char),
        partAt (versionParts v) 0 = JsNum.nan →
        partAt (versionParts v) 1 = JsNum.nan →
        partAt (versionParts v) 2 = JsNum.nan →
        isVersionCompatible v r = true)
    ∧ isVersionCompatible "abc".data "v1.2.3".data = true
    ∧ isVersionCompatible "1.2".data "v1.5.0".data = false
    ∧ isVersionCompatible " ".data "v1.2.3".data = false
    ∧ isVersionCompatible "+9.0.0".data "v1.2.3".data = true := by
  refine ⟨?_, by decide, by decide, by decide, by decide⟩
  intro v r h0 h1 h2
  unfold isVersionCompatible
  simp [versionLoop, h0, h1, h2, jsGt_nan_left, jsLt_nan_left]

theorem claim_C10_amended_witness :
    partAt (versionParts "x.y.z".data) 0 = JsNum.nan
    ∧ partAt (versionParts "x.y.z".data) 1 = JsNum.nan
    ∧ partAt (versionParts "x.y.z".data) 2 = JsNum.nan
    ∧ isVersionCompatible "x.y.z".data "v9.9.9".data = true :=
  ⟨by decide, by decide, by decide,
    claim_C10_amended.1 "x.y.z".data "v9.9.9".data
      (by decide) (by decide) (by decide)⟩

/-! ### Download protocol: `downloadFile` -/

/-- The `_downloadProgress` record (`DownloadProgress` in the source);
`totalSize = 0` means the content length was unknown. -/
structure DLProg where
  url : List Char
  totalSize : Nat
  downloadedSize : Nat
  percent : Nat
deriving DecidableEq

/-- The response `data` handler: the fold state carries the persistent
`_downloadProgress` record, the local `downloadedSize` accumulator and
`lastReportedPercent`; the result is the list of emitted progress events.
With an unknown total size the record is not updated (only the local byte
counter advances), exactly as in the source. -/
def chunkFold (url : List Char) (total : Nat) :
    DLProg → Nat → Nat → List Nat → List DLProg
  | _, _, _, [] => []
  | prog, d, last, c :: cs =>
    let d2 := d + c
    let prog2 : DLProg :=
      if 0 < total then ⟨url, total, d2, d2 * 100 / total⟩ else prog
    if last + 5 ≤ prog2.percent ∨ prog2.percent = 100 then
      prog2 :: chunkFold url total prog2 d2 prog2.percent cs
    else
      chunkFold url total prog2 d2 last cs

/-- Progress events of one `downloadFile` invocation that receives a 200
response: the emit at function entry (before the request), the emit when the
response arrives, the per-chunk emits, and the emit from the `finish`
handler (always percent 100, with the locally accumulated byte count). -/
def downloadEvents (url : List Char) (total : Nat) (chunks : List Nat) :
    List DLProg :=
  (⟨url, 0, 0, 0⟩ : DLProg) :: (⟨url, total, 0, 0⟩ : DLProg) ::
    (chunkFold url total ⟨url, total, 0, 0⟩ 0 0 chunks
      ++ [⟨url, total, chunks.sum, 100⟩])

/-- Observable actions of one `downloadFile` run. -/
inductive DLAct
  | request (url : List Char)
  | unlinkDest
deriving DecidableEq

/-- Outcome of a `downloadFile` promise. -/
inductive DLResult
  | resolved
  | rejected
deriving DecidableEq

/-- One scripted reaction of the network/filesystem to a GET request. -/
inductive HttpAttempt
  | resp (statusCode : Nat) (location : Option (List Char))
      (contentLength : Nat) (chunks : List Nat)
  | netErr
  | fileErr
deriving DecidableEq

/-- `downloadFile(url, destination)` against a script of per-request
reactions: a 3xx response with a `location` header closes and unlinks the
partial file and recurses on the redirect target; any other non-200
response unlinks and rejects; a 200 response streams the chunks and
resolves from the `finish` handler; a transport or file error unlinks and
rejects. `none` as first component means the script ended before the
promise settled. -/
def downloadRun : List Char → List HttpAttempt →
    Option DLResult × List DLAct × List DLProg
  | url, [] => (none, [DLAct.request url], [⟨url, 0, 0, 0⟩])
  | url, HttpAttempt.netErr :: _ =>
    (some DLResult.rejected, [DLAct.request url, DLAct.unlinkDest],
      [⟨url, 0, 0, 0⟩])
  | url, HttpAttempt.fileErr :: _ =>
    (some DLResult.rejected, [DLAct.request url, DLAct.unlinkDest],
      [⟨url, 0, 0, 0⟩])
  | url, HttpAttempt.resp code loc len chunks :: rest =>
    if 300 ≤ code ∧ code < 400 ∧ loc.isSome then
      let next := downloadRun (loc.getD []) rest
      (next.1, DLAct.request url :: DLAct.unlinkDest :: next.2.1,
        (⟨url, 0, 0, 0⟩ : DLProg) :: next.2.2)
    else if code ≠ 200 then
      (some DLResult.rejected, [DLAct.request url, DLAct.unlinkDest],
        [⟨url, 0, 0, 0⟩])
    else
      (some DLResult.resolved, [DLAct.request url],
        downloadEvents url len chunks)

/-- Emission discipline of the chunk handler: each emitted event is at
least 5 points above the previously reported percent, or is exactly 100. -/
def rel5 (last : Nat) : List DLProg → Prop
  | [] => True
  | e :: rest => (last + 5 ≤ e.percent ∨ e.percent = 100) ∧ rel5 e.percent rest

theorem chunkFold_rel5 (url : List Char) (total : Nat) :
    ∀ (chunks : List Nat) (prog : DLProg) (d last : Nat),
      rel5 last (chunkFold url total prog d last chunks) := by
  intro chunks
  induction chunks with
  | nil => intro prog d last; exact trivial
  | cons c cs ih =>
    intro prog d last
    unfold chunkFold
    dsimp only
    set prog2 := if 0 < total
      then (⟨url, total, d + c, (d + c) * 100 / total⟩ : DLProg) else prog
    split
    · exact ⟨by assumption, ih _ _ _⟩
    · exact ih _ _ _

theorem chunkFold_mono (url : List Char) (total : Nat) (htot : 0 < total) :
    ∀ (chunks : List Nat) (prog : DLProg) (d last : Nat),
      (∀ e ∈ chunkFold url total prog d last chunks,
          d * 100 / total ≤ e.percent
          ∧ e.percent ≤ (d + chunks.sum) * 100 / total)
      ∧ (chunkFold url total prog d last chunks).Pairwise
          (fun p q => p.percent ≤ q.percent) := by
  intro chunks
  induction chunks with
  | nil =>
    intro prog d last
    refine ⟨?_, ?_⟩
    · intro e he
      exact absurd he (List.not_mem_nil e)
    · exact List.Pairwise.nil
  | cons c cs ih =>
    intro prog d last
    have hlow : d * 100 / total ≤ (d + c) * 100 / total :=
      Nat.div_le_div_right (Nat.mul_le_mul_right _ (by omega))
    have hsum : (d + c) + cs.sum = d + (c :: cs).sum := by
      simp [List.sum_cons]; omega
    unfold chunkFold
    dsimp only
    rw [if_pos htot]
    split
    · constructor
      · intro e he
        rcases List.mem_cons.mp he with he | he
        · subst he
          refine ⟨hlow, ?_⟩
          exact Nat.div_le_div_right (Nat.mul_le_mul_right _ (by
            simp only [List.sum_cons]; omega))
        · obtain ⟨h1, h2⟩ := (ih _ (d + c) _).1 e he
          refine ⟨le_trans hlow h1, ?_⟩
          rwa [hsum] at h2
      · rw [List.pairwise_cons]
        refine ⟨?_, (ih _ (d + c) _).2⟩
        intro e he
        exact ((ih _ (d + c) _).1 e he).1
    · constructor
      · intro e he
        obtain ⟨h1, h2⟩ := (ih _ (d + c) _).1 e he
        refine ⟨le_trans hlow h1, ?_⟩
        rwa [hsum] at h2
      · exact (ih _ (d + c) _).2

theorem chunkFold_total_zero (url : List Char) :
    ∀ (chunks : List Nat) (d last : Nat) (prog : DLProg),
      prog.percent = 0 →
      chunkFold url 0 prog d last chunks = [] := by
  intro chunks
  induction chunks with
  | nil => intro d last prog _; rfl
  | cons c cs ih =>
    intro d last prog hp
    unfold chunkFold
    dsimp only
    rw [if_neg (by omega : ¬ (0 : Nat) < 0)]
    rw [if_neg (by rw [hp]; omega)]
    exact ih _ _ _ hp

theorem downloadEvents_getLast (url : List Char) (total : Nat)
    (chunks : List Nat) :
    (downloadEvents url total chunks).getLast? =
      some ⟨url, total, chunks.sum, 100⟩ := by
  unfold downloadEvents
  rw [show (⟨url, 0, 0, 0⟩ : DLProg) :: (⟨url, total, 0, 0⟩ : DLProg) ::
        (chunkFold url total ⟨url, total, 0, 0⟩ 0 0 chunks
          ++ [(⟨url, total, chunks.sum, 100⟩ : DLProg)]) =
      ((⟨url, 0, 0, 0⟩ : DLProg) :: (⟨url, total, 0, 0⟩ : DLProg) ::
        chunkFold url total ⟨url, total, 0, 0⟩ 0 0 chunks)
          ++ [(⟨url, total, chunks.sum, 100⟩ : DLProg)] from by simp]
  exact List.getLast?_concat _

/-- C6 counterexample: with a known total of 100 bytes arriving in one
chunk, one attempt emits the percent sequence [0, 0, 100, 100]; 0% is
emitted twice (at function entry and when the response arrives), not
exactly once, and 100% is emitted twice (by the chunk handler and by the
finish handler), not exactly once. -/
theorem claim_C6_counterexample :
    (downloadEvents "u".data 100 [100]).map DLProg.percent = [0, 0, 100, 100]
    ∧ ((downloadEvents "u".data 100 [100]).map DLProg.percent).count 0 = 2
    ∧ ((downloadEvents "u".data 100 [100]).map DLProg.percent).count 100 = 2 :=
  ⟨by decide, by decide, by decide⟩

/-- C6 amended: within one attempt the stream emits 0% twice — once at
function entry and once when the response arrives; every chunk event is at
least 5 points above the previous report or exactly 100; the finish handler
always emits a final event with percent 100; percent is monotonic
non-decreasing within the attempt provided the received bytes do not exceed
the advertised size; and when the transfer size is unknown (content length
0) no chunk events are emitted at all — the only events are the two 0%
records and the finish record, which still reports percent 100 together
with the final byte count. -/
theorem claim_C6_amended :
    (∀ (url : List Char) (total : Nat) (chunks : List Nat),
        (downloadEvents url total chunks).take 2 =
          [⟨url, 0, 0, 0⟩, ⟨url, total, 0, 0⟩]
        ∧ (downloadEvents url total chunks).getLast? =
            some ⟨url, total, chunks.sum, 100⟩
        ∧ rel5 0 (chunkFold url total ⟨url, total, 0, 0⟩ 0 0 chunks))
    ∧ (∀ (url : List Char) (total : Nat) (chunks : List Nat),
        0 < total → chunks.sum ≤ total →
        (downloadEvents url total chunks).Pairwise
          (fun p q => p.percent ≤ q.percent))
    ∧ (∀ (url : List Char) (chunks : List Nat),
        downloadEvents url 0 chunks =
          [⟨url, 0, 0, 0⟩, ⟨url, 0, 0, 0⟩, ⟨url, 0, chunks.sum, 100⟩]) := by
  refine ⟨?_, ?_, ?_⟩
  · intro url total chunks
    exact ⟨rfl, downloadEvents_getLast url total chunks,
      chunkFold_rel5 url total chunks _ 0 0⟩
  · intro url total chunks htot hsum
    unfold downloadEvents
    rw [List.pairwise_cons]
    constructor
    · intro e _; exact Nat.zero_le _
    rw [List.pairwise_cons]
    constructor
    · intro e _; exact Nat.zero_le _
    rw [List.pairwise_append]
    refine ⟨(chunkFold_mono url total htot chunks _ 0 0).2, by simp, ?_⟩
    intro a ha b hb
    rcases List.mem_singleton.mp hb with rfl
    have h2 := ((chunkFold_mono url total htot chunks _ 0 0).1 a ha).2
    calc a.percent ≤ (0 + chunks.sum) * 100 / total := h2
      _ ≤ total * 100 / total :=
          Nat.div_le_div_right (Nat.mul_le_mul_right _ (by omega))
      _ = 100 := Nat.mul_div_cancel_left 100 htot
  · intro url chunks
    unfold downloadEvents
    rw [chunkFold_total_zero url chunks 0 0 _ rfl]
    rfl

theorem claim_C6_amended_witness :
    0 < 100 ∧ List.sum [3, 97] ≤ 100
    ∧ (downloadEvents "u2".data 100 [3, 97]).Pairwise
        (fun p q => p.percent ≤ q.percent) :=
  ⟨by decide, by decide,
    claim_C6_amended.2.1 "u2".data 100 [3, 97] (by decide) (by decide)⟩

/-- C7: per download attempt, a 3xx response with a redirect target unlinks
the partial file and reissues the request against the target; any other
non-200 terminal response unlinks the partial file and rejects; a 200
response streams the body and resolves with a final 100% progress event;
and a transport or filesystem fault unlinks the partial file and rejects. -/
theorem claim_C7_download_protocol :
    ∀ (url : List Char) (script : List HttpAttempt),
      (∀ code loc len chunks rest,
          script = HttpAttempt.resp code loc len chunks :: rest →
          300 ≤ code → code < 400 → loc.isSome = true →
          downloadRun url script =
            ((downloadRun (loc.getD []) rest).1,
              DLAct.request url :: DLAct.unlinkDest ::
                (downloadRun (loc.getD []) rest).2.1,
              (⟨url, 0, 0, 0⟩ : DLProg) :: (downloadRun (loc.getD []) rest).2.2))
      ∧ (∀ code loc len chunks rest,
          script = HttpAttempt.resp code loc len chunks :: rest →
          ¬ (300 ≤ code ∧ code < 400 ∧ loc.isSome = true) →
          code ≠ 200 →
          downloadRun url script =
            (some DLResult.rejected, [DLAct.request url, DLAct.unlinkDest],
              [⟨url, 0, 0, 0⟩]))
      ∧ (∀ loc len chunks rest,
          script = HttpAttempt.resp 200 loc len chunks :: rest →
          downloadRun url script =
            (some DLResult.resolved, [DLAct.request url],
              downloadEvents url len chunks)
          ∧ (downloadEvents url len chunks).getLast? =
              some ⟨url, len, chunks.sum, 100⟩)
      ∧ (∀ rest,
          (script = HttpAttempt.netErr :: rest
            ∨ script = HttpAttempt.fileErr :: rest) →
          downloadRun url script =
            (some DLResult.rejected, [DLAct.request url, DLAct.unlinkDest],
              [⟨url, 0, 0, 0⟩])) := by
  intro url script
  refine ⟨?_, ?_, ?_, ?_⟩
  · intro code loc len chunks rest hs h1 h2 h3
    subst hs
    show (if 300 ≤ code ∧ code < 400 ∧ loc.isSome = true then
        let next := downloadRun (loc.getD []) rest
        (next.1, DLAct.request url :: DLAct.unlinkDest :: next.2.1,
          (⟨url, 0, 0, 0⟩ : DLProg) :: next.2.2)
      else if code ≠ 200 then
        (some DLResult.rejected, [DLAct.request url, DLAct.unlinkDest],
          [(⟨url, 0, 0, 0⟩ : DLProg)])
      else (some DLResult.resolved, [DLAct.request url],
        downloadEvents url len chunks)) = _
    rw [if_pos ⟨h1, h2, h3⟩]
  · intro code loc len chunks rest hs h1 h2
    subst hs
    unfold downloadRun
    rw [if_neg h1, if_pos h2]
  · intro loc len chunks rest hs
    subst hs
    constructor
    · unfold downloadRun
      rw [if_neg (fun h => absurd h.1 (by omega)),
        if_neg (by simp : ¬ (200 : Nat) ≠ 200)]
    · exact downloadEvents_getLast url len chunks
  · intro rest hs
    rcases hs with hs | hs <;> subst hs <;> rfl

theorem claim_C7_download_protocol_witness :
    downloadRun "u1".data
        [HttpAttempt.resp 302 (some "u2".data) 0 [],
          HttpAttempt.resp 200 none 10 [10]] =
      ((downloadRun "u2".data [HttpAttempt.resp 200 none 10 [10]]).1,
        DLAct.request "u1".data :: DLAct.unlinkDest ::
          (downloadRun "u2".data [HttpAttempt.resp 200 none 10 [10]]).2.1,
        (⟨"u1".data, 0, 0, 0⟩ : DLProg) ::
          (downloadRun "u2".data [HttpAttempt.resp 200 none 10 [10]]).2.2) :=
  (claim_C7_download_protocol "u1".data
      [HttpAttempt.resp 302 (some "u2".data) 0 [],
        HttpAttempt.resp 200 none 10 [10]]).1
    302 (some "u2".data) 0 [] [HttpAttempt.resp 200 none 10 [10]]
    rfl (by decide) (by decide) (by decide)

/-! ### Status model -/

/-- The lifecycle status enumeration. -/
inductive Status
  | initializing
  | starting
  | running
  | unsupported
  | error
deriving DecidableEq

/-- The installation status enumeration. -/
inductive InstallStatus
  | initializing
  | downloading
  | unsupported
  | error
  | installed
  | notInstalled
deriving DecidableEq

/-- The mutable fields of the manager used by the status model and the
process supervisor: `_status`, `_installStatus`, `_startRetry`. -/
structure HState where
  status : Status
  installStatus : InstallStatus
  startRetry : Nat
deriving DecidableEq

/-- Events emitted to observers. -/
inductive Event
  | statusChange (o n : Status)
  | installChange (o n : InstallStatus)
  | errorEvent
deriving DecidableEq

/-- The `set status` accessor: an identical value is a no-op; a differing
value updates the field, emits a status-change event carrying old and new,
and additionally a generic error event when the new value is `error`. -/
def setStatus (s : HState) (v : Status) : HState × List Event :=
  if s.status = v then (s, [])
  else ({ s with status := v },
    Event.statusChange s.status v ::
      (if v = Status.error then [Event.errorEvent] else []))

/-- The `set installStatus` accessor, same compare-then-emit discipline. -/
def setInstallStatus (s : HState) (v : InstallStatus) : HState × List Event :=
  if s.installStatus = v then (s, [])
  else ({ s with installStatus := v },
    Event.installChange s.installStatus v ::
      (if v = InstallStatus.error then [Event.errorEvent] else []))

/-- A mutation request against one of the two status axes. -/
inductive Mutation
  | setSt (v : Status)
  | setInst (v : InstallStatus)

/-- Applies a sequence of mutations through the two accessors, collecting
every emitted event in order. -/
def runMutations (s : HState) : List Mutation → HState × List Event
  | [] => (s, [])
  | Mutation.setSt v :: ms =>
    let step := setStatus s v
    let rest := runMutations step.1 ms
    (rest.1, step.2 ++ rest.2)
  | Mutation.setInst v :: ms =>
    let step := setInstallStatus s v
    let rest := runMutations step.1 ms
    (rest.1, step.2 ++ rest.2)

/-- Modelled from the spec's words: the value a mutation leaves in the
state, with no events involved. -/
def applyMut (s : HState) : Mutation → HState
  | Mutation.setSt v => { s with status := v }
  | Mutation.setInst v => { s with installStatus := v }

/-- Modelled from the spec's words: the state after each mutation of the
sequence, in order (the full trace is the initial state consed on). -/
def mutStates (s : HState) : List Mutation → List HState
  | [] => []
  | m :: ms => applyMut s m :: mutStates (applyMut s m) ms

/-- Modelled from the spec's words: the actual value transitions of a trace
with head `a` — consecutive pairs whose values differ. -/
def transitionsFrom {α : Type} [DecidableEq α] (a : α) : List α → List (α × α)
  | [] => []
  | b :: rest => (if a = b then [] else [(a, b)]) ++ transitionsFrom b rest

/-- Actual value transitions of a full trace. -/
def transitions {α : Type} [DecidableEq α] : List α → List (α × α)
  | [] => []
  | a :: rest => transitionsFrom a rest

/-- Projection extracting status-change events. -/
def statusChangePair : Event → Option (Status × Status)
  | Event.statusChange o n => some (o, n)
  | _ => none

/-- Projection extracting install-status-change events. -/
def installChangePair : Event → Option (InstallStatus × InstallStatus)
  | Event.installChange o n => some (o, n)
  | _ => none

theorem runMut_status_events : ∀ (ms : List Mutation) (s : HState),
    (runMutations s ms).2.filterMap statusChangePair =
      transitionsFrom s.status ((mutStates s ms).map HState.status) := by
  intro ms
  induction ms with
  | nil => intro s; rfl
  | cons m ms ih =>
    intro s
    cases m with
    | setSt v =>
      by_cases h : s.status = v
      · have hs : ({ s with status := v } : HState) = s := by rw [← h]
        simp [runMutations, setStatus, if_pos h, mutStates, applyMut, hs,
          transitionsFrom, h, ih s]
      · by_cases he : v = Status.error
        · subst he
          simp [runMutations, setStatus, if_neg h, mutStates, applyMut,
            transitionsFrom, h, statusChangePair, ih]
        · simp [runMutations, setStatus, if_neg h, he, mutStates, applyMut,
            transitionsFrom, h, statusChangePair, ih]
    | setInst v =>
      by_cases h : s.installStatus = v
      · have hs : ({ s with installStatus := v } : HState) = s := by rw [← h]
        simp [runMutations, setInstallStatus, if_pos h, mutStates, applyMut,
          hs, transitionsFrom, ih s]
      · by_cases he : v = InstallStatus.error
        · subst he
          simp [runMutations, setInstallStatus, if_neg h, mutStates,
            applyMut, transitionsFrom, h, statusChangePair, ih]
        · simp [runMutations, setInstallStatus, if_neg h, he, mutStates,
            applyMut, transitionsFrom, statusChangePair, ih]

theorem runMut_install_events : ∀ (ms : List Mutation) (s : HState),
    (runMutations s ms).2.filterMap installChangePair =
      transitionsFrom s.installStatus
        ((mutStates s ms).map HState.installStatus) := by
  intro ms
  induction ms with
  | nil => intro s; rfl
  | cons m ms ih =>
    intro s
    cases m with
    | setSt v =>
      by_cases h : s.status = v
      · have hs : ({ s with status := v } : HState) = s := by rw [← h]
        simp [runMutations, setStatus, if_pos h, mutStates, applyMut, hs,
          transitionsFrom, ih s]
      · by_cases he : v = Status.error
        · subst he
          simp [runMutations, setStatus, if_neg h, mutStates, applyMut,
            transitionsFrom, h, installChangePair, ih]
        · simp [runMutations, setStatus, if_neg h, he, mutStates, applyMut,
            transitionsFrom, installChangePair, ih]
    | setInst v =>
      by_cases h : s.installStatus = v
      · have hs : ({ s with installStatus := v } : HState) = s := by rw [← h]
        simp [runMutations, setInstallStatus, if_pos h, mutStates, applyMut,
          hs, transitionsFrom, h, ih s]
      · by_cases he : v = InstallStatus.error
        · subst he
          simp [runMutations, setInstallStatus, if_neg h, mutStates,
            applyMut, transitionsFrom, h, installChangePair, ih]
        · simp [runMutations, setInstallStatus, if_neg h, he, mutStates,
            applyMut, transitionsFrom, h, installChangePair, ih]

theorem runMut_error_events : ∀ (ms : List Mutation) (s : HState),
    (runMutations s ms).2.count Event.errorEvent =
      (transitionsFrom s.status
          ((mutStates s ms).map HState.status)).countP
        (fun p => decide (p.2 = Status.error))
      + (transitionsFrom s.installStatus
          ((mutStates s ms).map HState.installStatus)).countP
        (fun p => decide (p.2 = InstallStatus.error)) := by
  intro ms
  induction ms with
  | nil => intro s; rfl
  | cons m ms ih =>
    intro s
    cases m with
    | setSt v =>
      by_cases h : s.status = v
      · have hs : ({ s with status := v } : HState) = s := by rw [← h]
        simp [runMutations, setStatus, if_pos h, mutStates, applyMut, hs,
          transitionsFrom, h, ih s]
      · by_cases he : v = Status.error
        · subst he
          simp [runMutations, setStatus, if_neg h, mutStates, applyMut,
            transitionsFrom, h, List.count_cons, List.count_append, ih]
          omega
        · simp [runMutations, setStatus, if_neg h, he, mutStates, applyMut,
            transitionsFrom, h, List.count_cons, List.count_append, ih]
    | setInst v =>
      by_cases h : s.installStatus = v
      · have hs : ({ s with installStatus := v } : HState) = s := by rw [← h]
        simp [runMutations, setInstallStatus, if_pos h, mutStates, applyMut,
          hs, transitionsFrom, h, ih s]
      · by_cases he : v = InstallStatus.error
        · subst he
          simp [runMutations, setInstallStatus, if_neg h, mutStates,
            applyMut, transitionsFrom, h, List.count_cons, List.count_append,
            ih]
          omega
        · simp [runMutations, setInstallStatus, if_neg h, he, mutStates,
            applyMut, transitionsFrom, h, List.count_cons, List.count_append,
            ih]

/-- C8: over any sequence of status or install-status mutations, observers
receive exactly one change event per actual value transition, carrying the
old and new values in order; a setter invoked with the current value emits
nothing; and each transition into error on either axis emits one generic
error event. -/
theorem claim_C8_observer_events :
    ∀ (ms : List Mutation) (s : HState),
      ((runMutations s ms).2.filterMap statusChangePair =
        transitions ((s :: mutStates s ms).map HState.status))
      ∧ ((runMutations s ms).2.filterMap installChangePair =
        transitions ((s :: mutStates s ms).map HState.installStatus))
      ∧ ((runMutations s ms).2.count Event.errorEvent =
        (transitions ((s :: mutStates s ms).map HState.status)).countP
            (fun p => decide (p.2 = Status.error))
          + (transitions
              ((s :: mutStates s ms).map HState.installStatus)).countP
            (fun p => decide (p.2 = InstallStatus.error))) := by
  intro ms s
  refine ⟨?_, ?_, ?_⟩
  · exact runMut_status_events ms s
  · exact runMut_install_events ms s
  · exact runMut_error_events ms s

/-! ### Acquisition pipeline: `install` -/

/-- The four acquisition sources, in pipeline order. -/
inductive Source
  | cached
  | builtin
  | primary
  | fallback
deriving DecidableEq

/-- Outcomes the environment supplies to one run of `install()`: whether the
download directory could be created, existence and size of the two archives,
success of the two downloads, and success of the per-step `extractZip` and
`writeVersionAndConf` calls. -/
structure InstallEnv where
  mkdirOk : Bool
  cachedPresent : Bool
  cachedSize : Nat
  builtinPresent : Bool
  builtinSize : Nat
  primaryOk : Bool
  fallbackOk : Bool
  extractCached : Bool
  writeCached : Bool
  extractBuiltin : Bool
  writeBuiltin : Bool
  extractPrimary : Bool
  writePrimary : Bool
  extractFallback : Bool
  writeFallback : Bool
deriving DecidableEq

/-- `checkExistingZip`: first component is whether the check passed (did not
throw), second whether an undersized file was deleted (only with
`deleteIfSmall`). A missing or undersized file throws. -/
def checkExistingZip (present : Bool) (size : Nat) (deleteIfSmall : Bool) :
    Bool × Bool :=
  if present then
    if size < 1024 * 1024 then (false, deleteIfSmall)
    else (true, false)
  else (false, false)

/-- Whether the acquisition part of a step succeeds: the size-checked cache
or bundle lookup, or the download. -/
def acquireOk (env : InstallEnv) : Source → Bool
  | Source.cached => (checkExistingZip env.cachedPresent env.cachedSize true).1
  | Source.builtin =>
    (checkExistingZip env.builtinPresent env.builtinSize false).1
  | Source.primary => env.primaryOk
  | Source.fallback => env.fallbackOk

/-- Whether the `extractZip` call of a step succeeds. -/
def extractOk (env : InstallEnv) : Source → Bool
  | Source.cached => env.extractCached
  | Source.builtin => env.extractBuiltin
  | Source.primary => env.extractPrimary
  | Source.fallback => env.extractFallback

/-- Whether the `writeVersionAndConf` call of a step succeeds. -/
def writeOk (env : InstallEnv) : Source → Bool
  | Source.cached => env.writeCached
  | Source.builtin => env.writeBuiltin
  | Source.primary => env.writePrimary
  | Source.fallback => env.writeFallback

/-- A whole step succeeds when its acquisition, extraction and version plus
config bookkeeping all succeed. -/
def stepOk (env : InstallEnv) (s : Source) : Bool :=
  acquireOk env s && extractOk env s && writeOk env s

/-- `install()`: mirrors the four sequential try blocks with early returns.
First component: the sources attempted, in order. Second: the sequence of
`installStatus` values assigned, the last being the final one;
`downloading` is assigned once before step 3, and a failing directory
creation is caught by the outer handler. -/
def install (env : InstallEnv) : List Source × List InstallStatus :=
  if env.mkdirOk then
    if stepOk env Source.cached then
      ([Source.cached], [InstallStatus.installed])
    else if stepOk env Source.builtin then
      ([Source.cached, Source.builtin], [InstallStatus.installed])
    else if stepOk env Source.primary then
      ([Source.cached, Source.builtin, Source.primary],
        [InstallStatus.downloading, InstallStatus.installed])
    else if stepOk env Source.fallback then
      ([Source.cached, Source.builtin, Source.primary, Source.fallback],
        [InstallStatus.downloading, InstallStatus.installed])
    else
      ([Source.cached, Source.builtin, Source.primary, Source.fallback],
        [InstallStatus.downloading, InstallStatus.error])
  else ([], [InstallStatus.error])

/-- The pipeline order of the four sources. -/
def sourceOrder : List Source :=
  [Source.cached, Source.builtin, Source.primary, Source.fallback]

/-- Modelled from the spec's words: index of the first list entry satisfying
a predicate. -/
def findFirst {α : Type} (p : α → Bool) : List α → Option Nat
  | [] => none
  | x :: rest => if p x then some 0 else (findFirst p rest).map (· + 1)

/-- C3: with the download directory creatable, `install` tries the four
sources strictly in pipeline order, stops at the first successful one
(whose extraction and bookkeeping set the final install status to
installed), and when every source fails it has attempted all four and the
final install status is error. -/
theorem claim_C3_pipeline :
    ∀ env : InstallEnv, env.mkdirOk = true →
      (match findFirst (fun s => stepOk env s) sourceOrder with
        | some i =>
          (install env).1 = sourceOrder.take (i + 1)
          ∧ (install env).2.getLastD InstallStatus.error =
              InstallStatus.installed
        | none =>
          (install env).1 = sourceOrder
          ∧ (install env).2.getLastD InstallStatus.error =
              InstallStatus.error) := by
  intro env hmk
  cases h1 : stepOk env Source.cached <;>
    cases h2 : stepOk env Source.builtin <;>
      cases h3 : stepOk env Source.primary <;>
        cases h4 : stepOk env Source.fallback <;>
          simp [install, hmk, sourceOrder, findFirst, h1, h2, h3, h4]

/-- Environment for the C3 witness: no cached archive, an undersized
bundled archive, primary download succeeding. -/
def envPrimaryWins : InstallEnv :=
  ⟨true, false, 0, true, 512, true, false,
    true, true, true, true, true, true, true, true⟩

theorem claim_C3_pipeline_witness :
    (install envPrimaryWins).1 =
      [Source.cached, Source.builtin, Source.primary]
    ∧ (install envPrimaryWins).2.getLastD InstallStatus.error =
        InstallStatus.installed := by
  have h := claim_C3_pipeline envPrimaryWins rfl
  simpa [envPrimaryWins, findFirst, sourceOrder, stepOk, acquireOk,
    extractOk, writeOk, checkExistingZip] using h

/-- C9: a cached archive that exists but is smaller than 1 MiB is deleted
and the pipeline falls through to the bundled-archive step; the bundled
archive, checked without `deleteIfSmall`, is never deleted even when it is
undersized. -/
theorem claim_C9_small_zip :
    (∀ env : InstallEnv, env.mkdirOk = true →
        env.cachedPresent = true → env.cachedSize < 1024 * 1024 →
        (checkExistingZip env.cachedPresent env.cachedSize true).2 = true
        ∧ Source.builtin ∈ (install env).1)
    ∧ (∀ (present : Bool) (size : Nat),
        (checkExistingZip present size false).2 = false) := by
  constructor
  · intro env hmk hp hsz
    constructor
    · simp [checkExistingZip, hp, hsz]
    · have hstep : stepOk env Source.cached = false := by
        simp [stepOk, acquireOk, checkExistingZip, hp, hsz]
      cases h2 : stepOk env Source.builtin <;>
        cases h3 : stepOk env Source.primary <;>
          cases h4 : stepOk env Source.fallback <;>
            simp [install, hmk, hstep, h2, h3, h4]
  · intro present size
    unfold checkExistingZip
    split
    · split <;> rfl
    · rfl

/-- Environment for the C9 witness: an undersized cached archive and an
undersized bundled archive. -/
def envSmallCache : InstallEnv :=
  ⟨true, true, 4096, true, 4096, true, false,
    true, true, true, true, true, true, true, true⟩

theorem claim_C9_small_zip_witness :
    ((checkExistingZip envSmallCache.cachedPresent envSmallCache.cachedSize
        true).2 = true
      ∧ Source.builtin ∈ (install envSmallCache).1)
    ∧ (checkExistingZip true 4096 false).2 = false :=
  ⟨claim_C9_small_zip.1 envSmallCache rfl rfl (by decide),
    claim_C9_small_zip.2 true 4096⟩

/-! ### Version gate flow: `checkIsCompatibleVersion` and `shutdown` -/

theorem setStatus_fst_status (s : HState) (v : Status) :
    (setStatus s v).1.status = v := by
  unfold setStatus
  split
  · assumption
  · rfl

theorem setInstallStatus_fst_installStatus (s : HState) (v : InstallStatus) :
    (setInstallStatus s v).1.installStatus = v := by
  unfold setInstallStatus
  split
  · assumption
  · rfl

theorem setStatus_fst_installStatus (s : HState) (v : Status) :
    (setStatus s v).1.installStatus = s.installStatus := by
  unfold setStatus
  split <;> rfl

theorem setInstallStatus_fst_status (s : HState) (v : InstallStatus) :
    (setInstallStatus s v).1.status = s.status := by
  unfold setInstallStatus
  split <;> rfl

/-- Server and filesystem actions of the version gate. The
`unlinkVersionFile` action exists in the vocabulary because the
specification claims the marker is deleted; the code never performs it. -/
inductive VAct
  | stopRequest
  | unlinkCore
  | unlinkVersionFile
deriving DecidableEq

/-- `shutdown()`: posts the stop request; when the post succeeds it waits
for shutdown and assigns status `initializing`; a failing post is swallowed
and skips the rest. Returns final state, intermediate state trace, events
and actions. -/
def shutdown (stopOk : Bool) (s : HState) :
    HState × List HState × List Event × List VAct :=
  if stopOk then
    let r := setStatus s Status.initializing
    (r.1, [r.1], r.2, [VAct.stopRequest])
  else (s, [], [], [VAct.stopRequest])

/-- `checkIsCompatibleVersion()`: reads `version.txt`; a readable,
compatible version does nothing; a readable, incompatible version unlinks
the executable (not the marker) and sets not-installed, with no shutdown;
an unreadable marker takes the shutdown path and then unlinks the
executable and sets not-installed. -/
def checkIsCompatibleVersion (required : List Char)
    (versionFile : Option (List Char)) (stopOk : Bool) (s : HState) :
    HState × List HState × List Event × List VAct :=
  match versionFile with
  | some v =>
    if isVersionCompatible v required then (s, [], [], [])
    else
      let r := setInstallStatus s InstallStatus.notInstalled
      (r.1, [r.1], r.2, [VAct.unlinkCore])
  | none =>
    let sd := shutdown stopOk s
    let r := setInstallStatus sd.1 InstallStatus.notInstalled
    (r.1, sd.2.1 ++ [r.1], sd.2.2.1 ++ r.2, sd.2.2.2 ++ [VAct.unlinkCore])

/-- The state in which the version gate runs during initialization. -/
def gateState : HState :=
  ⟨Status.initializing, InstallStatus.installed, 0⟩

/-- C1 counterexample: with the marker readable as `v0.1.0` and required
version `v0.2.0` (incompatible), `checkIsCompatibleVersion` performs no
stop request and does not delete the version marker; it only unlinks the
executable and sets not-installed, contradicting the claimed
stop-then-delete-both sequence. -/
theorem claim_C1_counterexample :
    isVersionCompatible "v0.1.0".data "v0.2.0".data = false
    ∧ (checkIsCompatibleVersion "v0.2.0".data (some "v0.1.0".data) true
        gateState).2.2.2 = [VAct.unlinkCore]
    ∧ VAct.stopRequest ∉ (checkIsCompatibleVersion "v0.2.0".data
        (some "v0.1.0".data) true gateState).2.2.2
    ∧ VAct.unlinkVersionFile ∉ (checkIsCompatibleVersion "v0.2.0".data
        (some "v0.1.0".data) true gateState).2.2.2
    ∧ (checkIsCompatibleVersion "v0.2.0".data (some "v0.1.0".data) true
        gateState).1.installStatus = InstallStatus.notInstalled :=
  ⟨by decide, by decide, by decide, by decide, by decide⟩

/-- C1 amended: when the installed version is read successfully and found
incompatible, the manager deletes only the executable (never the version
marker) and sets install status to not-installed, with no stop attempt;
the graceful stop is attempted only when the version marker cannot be
read, followed by deleting the executable and setting not-installed. -/
theorem claim_C1_amended :
    (∀ (required v : List Char) (stopOk : Bool) (s : HState),
        isVersionCompatible v required = false →
        checkIsCompatibleVersion required (some v) stopOk s =
          ((setInstallStatus s InstallStatus.notInstalled).1,
            [(setInstallStatus s InstallStatus.notInstalled).1],
            (setInstallStatus s InstallStatus.notInstalled).2,
            [VAct.unlinkCore]))
    ∧ (∀ (required : List Char) (stopOk : Bool) (s : HState),
        (checkIsCompatibleVersion required none stopOk s).2.2.2 =
          [VAct.stopRequest, VAct.unlinkCore]
        ∧ (checkIsCompatibleVersion required none stopOk s).1.installStatus =
            InstallStatus.notInstalled) := by
  constructor
  · intro required v stopOk s h
    simp [checkIsCompatibleVersion, h]
  · intro required stopOk s
    constructor
    · cases stopOk <;> rfl
    · cases stopOk <;>
        exact setInstallStatus_fst_installStatus _ _

theorem claim_C1_amended_witness :
    isVersionCompatible "v0.1.0".data "v9.0.0".data = false
    ∧ checkIsCompatibleVersion "v9.0.0".data (some "v0.1.0".data) false
        gateState =
      ((setInstallStatus gateState InstallStatus.notInstalled).1,
        [(setInstallStatus gateState InstallStatus.notInstalled).1],
        (setInstallStatus gateState InstallStatus.notInstalled).2,
        [VAct.unlinkCore]) :=
  ⟨by decide,
    claim_C1_amended.1 "v9.0.0".data "v0.1.0".data false gateState
      (by decide)⟩

/-! ### Process supervisor: `start` -/

/-- `start()`: the health-probe, spawn and retry loop. `probes` gives the
result of each successive `isRunning()` probe, indexed by `k`; `fuel`
bounds the recursion depth, and any value of at least `12 - startRetry`
lets the ceiling of 10 fire first. Returns the final state, the trace of
states after each mutation, and the number of spawn attempts. -/
def startGo (probes : Nat → Bool) :
    Nat → Nat → HState → HState × List HState × Nat
  | 0, _, st => (st, [], 0)
  | fuel + 1, k, st =>
    if probes k then
      let r := setStatus st Status.running
      (r.1, [r.1], 0)
    else
      let st1 := { st with startRetry := st.startRetry + 1 }
      if st1.startRetry > 10 then
        let st2 := { st1 with startRetry := 0 }
        let r := setStatus st2 Status.error
        (r.1, [st1, st2, r.1], 0)
      else
        if probes (k + 1) then
          let r := setStatus st1 Status.running
          (r.1, [st1, r.1], 1)
        else
          let rec2 := startGo probes fuel (k + 2) st1
          (rec2.1, st1 :: rec2.2.1, 1 + rec2.2.2)

/-- C5 counterexample: the first attempt fails (one spawn), the next
scheduled attempt finds the server running: the supervisor reaches
`running` with the retry counter at 1, not 0 — a successful start does not
reset the counter. -/
theorem claim_C5_counterexample :
    (startGo (fun j => decide (2 ≤ j)) 12 0
        ⟨Status.starting, InstallStatus.installed, 0⟩).1 =
      ⟨Status.running, InstallStatus.installed, 1⟩
    ∧ (startGo (fun j => decide (2 ≤ j)) 12 0
        ⟨Status.starting, InstallStatus.installed, 0⟩).2.2 = 1 :=
  ⟨by decide, by decide⟩

/-- C5 amended: the retry counter counts consecutive failed start attempts
and is bounded — with every probe failing and the counter starting at 0
the loop spawns 10 times, then sets the lifecycle status to error and
resets the counter to 0; but a successful start leaves the counter at its
current value (it is cleared only by the initialization sequence before
the first attempt, not on success). -/
theorem claim_C5_amended :
    (∀ (probes : Nat → Bool) (k : Nat) (st : HState),
        (∀ j, probes j = false) → st.startRetry = 0 →
        (startGo probes 12 k st).1 = ⟨Status.error, st.installStatus, 0⟩
        ∧ (startGo probes 12 k st).2.2 = 10)
    ∧ (∀ (probes : Nat → Bool) (fuel k : Nat) (st : HState),
        probes k = true →
        startGo probes (fuel + 1) k st =
          ((setStatus st Status.running).1,
            [(setStatus st Status.running).1], 0)) := by
  constructor
  · intro probes k st hp h0
    obtain ⟨stS, stI, stR⟩ := st
    simp only at h0
    subst h0
    cases stS <;> simp [startGo, hp, setStatus]
  · intro probes fuel k st hp
    simp [startGo, hp]

theorem claim_C5_amended_witness :
    ((∀ j, (fun (_ : Nat) => false) j = false)
      ∧ (startGo (fun _ => false) 12 0
          ⟨Status.starting, InstallStatus.installed, 0⟩).1 =
        ⟨Status.error, InstallStatus.installed, 0⟩
      ∧ (startGo (fun _ => false) 12 0
          ⟨Status.starting, InstallStatus.installed, 0⟩).2.2 = 10)
    ∧ startGo (fun _ => true) 5 0 gateState =
        ((setStatus gateState Status.running).1,
          [(setStatus gateState Status.running).1], 0) :=
  ⟨⟨fun _ => rfl,
      (claim_C5_amended.1 (fun _ => false) 0
        ⟨Status.starting, InstallStatus.installed, 0⟩ (fun _ => rfl) rfl).1,
      (claim_C5_amended.1 (fun _ => false) 0
        ⟨Status.starting, InstallStatus.installed, 0⟩ (fun _ => rfl) rfl).2⟩,
    claim_C5_amended.2 (fun _ => true) 4 0 gateState rfl⟩

/-! ### Initialization: `doInit` -/

theorem startGo_states (probes : Nat → Bool) :
    ∀ (fuel k : Nat) (st s : HState),
      s ∈ (startGo probes fuel k st).2.1 →
      s.installStatus = st.installStatus
      ∧ (s.status = st.status ∨ s.status = Status.running
          ∨ s.status = Status.error) := by
  intro fuel
  induction fuel with
  | zero =>
    intro k st s hs
    exact absurd hs (List.not_mem_nil s)
  | succ fuel ih =>
    intro k st s hs
    unfold startGo at hs
    by_cases hp : probes k
    · rw [if_pos hp] at hs
      simp only [List.mem_cons, List.not_mem_nil, or_false] at hs
      subst hs
      exact ⟨setStatus_fst_installStatus st _,
        Or.inr (Or.inl (setStatus_fst_status st _))⟩
    · rw [if_neg hp] at hs
      by_cases hc : st.startRetry + 1 > 10
      · rw [if_pos hc] at hs
        simp only [List.mem_cons, List.not_mem_nil, or_false] at hs
        rcases hs with rfl | rfl | rfl
        · exact ⟨rfl, Or.inl rfl⟩
        · exact ⟨rfl, Or.inl rfl⟩
        · exact ⟨setStatus_fst_installStatus _ _,
            Or.inr (Or.inr (setStatus_fst_status _ _))⟩
      · rw [if_neg hc] at hs
        by_cases hp2 : probes (k + 1)
        · rw [if_pos hp2] at hs
          simp only [List.mem_cons, List.not_mem_nil, or_false] at hs
          rcases hs with rfl | rfl
          · exact ⟨rfl, Or.inl rfl⟩
          · exact ⟨setStatus_fst_installStatus _ _,
              Or.inr (Or.inl (setStatus_fst_status _ _))⟩
        · rw [if_neg hp2] at hs
          simp only [List.mem_cons] at hs
          rcases hs with rfl | hs
          · exact ⟨rfl, Or.inl rfl⟩
          · obtain ⟨h1, h2⟩ := ih (k + 2)
              { st with startRetry := st.startRetry + 1 } s hs
            exact ⟨h1, h2⟩

theorem install_statuses (ienv : InstallEnv) :
    (install ienv).2 = [InstallStatus.installed]
    ∨ (install ienv).2 = [InstallStatus.downloading, InstallStatus.installed]
    ∨ (install ienv).2 = [InstallStatus.downloading, InstallStatus.error]
    ∨ (install ienv).2 = [InstallStatus.error] := by
  by_cases hm : ienv.mkdirOk <;>
    cases h1 : stepOk ienv Source.cached <;>
      cases h2 : stepOk ienv Source.builtin <;>
        cases h3 : stepOk ienv Source.primary <;>
          cases h4 : stepOk ienv Source.fallback <;>
            simp [install, hm, h1, h2, h3, h4]

/-- The environment an initialization run observes: platform support,
local-server mode, success of the binary-directory creation and of the
executable presence check, the required version, the readable content of
the version marker (if any), the stop-request outcome, the acquisition
environment and the health-probe results. -/
structure Env where
  isSupported : Bool
  localMode : Bool
  dirOk : Bool
  coreFound : Bool
  required : List Char
  versionFile : Option (List Char)
  stopOk : Bool
  installEnv : InstallEnv
  probes : Nat → Bool

/-- Lifts the `installStatus` assignments performed by `install()` onto a
state: one intermediate state per assignment, the last being the result. -/
def applyInstall (ienv : InstallEnv) (s : HState) : HState × List HState :=
  let states := (install ienv).2.map
    (fun v => { s with installStatus := v })
  (states.getLastD s, states)

/-- The state at construction. -/
def initState : HState :=
  ⟨Status.initializing, InstallStatus.initializing, 0⟩

/-- The tail of `doInit()` after presence, compatibility and acquisition
have produced the state `s3`: either the install did not end `installed`
and the lifecycle goes to error, or the supervisor is started. `trace0` is
the trace accumulated so far. -/
def doInitFinish (env : Env) (s3 : HState) (trace0 : List HState) :
    HState × List HState :=
  if s3.installStatus ≠ InstallStatus.installed then
    let r := setStatus s3 Status.error
    (r.1, trace0 ++ [r.1])
  else if s3.status ≠ Status.running then
    let rs := setStatus s3 Status.starting
    let s4 := { rs.1 with startRetry := 0 }
    let run := startGo env.probes 12 0 s4
    (run.1, trace0 ++ [rs.1, s4] ++ run.2.1)
  else (s3, trace0)

/-- `doInit()`: the single initialization sequence triggered by the
constructor. Returns the final state and the trace of every state reached,
the initial one included: unsupported platforms set both axes to
unsupported; non-local mode jumps straight to running; local mode checks
presence, gates compatibility, acquires if needed, then either errors or
starts the supervisor. -/
def doInit (env : Env) : HState × List HState :=
  let s0 := initState
  if env.isSupported = false then
    let r1 := setStatus s0 Status.unsupported
    let r2 := setInstallStatus r1.1 InstallStatus.unsupported
    (r2.1, [s0, r1.1, r2.1])
  else if env.localMode = false then
    let r1 := setStatus s0 Status.running
    (r1.1, [s0, r1.1])
  else
    let i1 := if env.dirOk && env.coreFound then
        setInstallStatus s0 InstallStatus.installed
      else setInstallStatus s0 InstallStatus.notInstalled
    let s1 := i1.1
    let compat := if s1.installStatus = InstallStatus.installed then
        checkIsCompatibleVersion env.required env.versionFile env.stopOk s1
      else (s1, [], [], [])
    let s2 := compat.1
    let inst := if s2.installStatus = InstallStatus.notInstalled then
        applyInstall env.installEnv s2
      else (s2, [])
    doInitFinish env inst.1 ([s0, s1] ++ compat.2.1 ++ inst.2)

/-- A state is reachable when some environment's initialization run passes
through it. -/
def Reachable (s : HState) : Prop :=
  ∃ env : Env, s ∈ (doInit env).2

/-- Environment of a non-local (managed-elsewhere) run. -/
def envNonLocal : Env :=
  ⟨true, false, true, true, [], none, true,
    ⟨true, false, 0, false, 0, true, true,
      true, true, true, true, true, true, true, true⟩,
    fun _ => false⟩

/-- C4 counterexample: the non-local pass-through run reaches a state with
lifecycle status running while install status is still initializing, so
running does not imply installed over all reachable states. -/
theorem claim_C4_counterexample :
    (⟨Status.running, InstallStatus.initializing, 0⟩ : HState) ∈
      (doInit envNonLocal).2
    ∧ (⟨Status.running, InstallStatus.initializing, 0⟩ : HState).status =
        Status.running
    ∧ (⟨Status.running, InstallStatus.initializing, 0⟩ : HState).installStatus
        ≠ InstallStatus.installed :=
  ⟨by decide, by decide, by decide⟩

theorem doInitFinish_prop (env : Env) (s3 : HState) (trace0 : List HState)
    (s : HState)
    (h3s : s3.status = Status.initializing)
    (h3i : s3.installStatus = InstallStatus.installed
      ∨ s3.installStatus = InstallStatus.error)
    (htr : ∀ t ∈ trace0, t.installStatus ≠ InstallStatus.unsupported
      ∧ t.status ≠ Status.running)
    (hmem : s ∈ (doInitFinish env s3 trace0).2) :
    (s.installStatus = InstallStatus.unsupported →
      s.status = Status.unsupported)
    ∧ (s.status = Status.running →
      s.installStatus = InstallStatus.installed) := by
  unfold doInitFinish at hmem
  rcases h3i with h3i | h3i
  · rw [if_neg (by simp [h3i])] at hmem
    rw [if_pos (by simp [h3s])] at hmem
    have hA : (setStatus s3 Status.starting).1.installStatus =
        InstallStatus.installed := by
      rw [setStatus_fst_installStatus]; exact h3i
    have hB : (setStatus s3 Status.starting).1.status = Status.starting :=
      setStatus_fst_status _ _
    have hA2 : ({ (setStatus s3 Status.starting).1 with startRetry := 0 } :
        HState).installStatus = InstallStatus.installed := hA
    have hB2 : ({ (setStatus s3 Status.starting).1 with startRetry := 0 } :
        HState).status = Status.starting := hB
    simp only [List.mem_append, List.mem_cons, List.not_mem_nil,
      or_false] at hmem
    rcases hmem with (ht | rfl | rfl) | hmem
    · exact ⟨fun h => absurd h (htr _ ht).1, fun h => absurd h (htr _ ht).2⟩
    · constructor
      · intro h; rw [hA] at h; exact absurd h (by decide)
      · intro h; rw [hB] at h; exact absurd h (by decide)
    · constructor
      · intro h; rw [hA2] at h; exact absurd h (by decide)
      · intro h; rw [hB2] at h; exact absurd h (by decide)
    · obtain ⟨g1, g2⟩ := startGo_states env.probes 12 0 _ s hmem
      constructor
      · intro h
        rw [g1, hA2] at h
        exact absurd h (by decide)
      · intro _
        rw [g1]
        exact hA2
  · rw [if_pos (by simp [h3i])] at hmem
    simp only [List.mem_append, List.mem_cons, List.not_mem_nil,
      or_false] at hmem
    have hA : (setStatus s3 Status.error).1.installStatus =
        InstallStatus.error := by
      rw [setStatus_fst_installStatus]; exact h3i
    have hB : (setStatus s3 Status.error).1.status = Status.error :=
      setStatus_fst_status _ _
    rcases hmem with ht | rfl
    · exact ⟨fun h => absurd h (htr _ ht).1, fun h => absurd h (htr _ ht).2⟩
    · constructor
      · intro h; rw [hA] at h; exact absurd h (by decide)
      · intro h; rw [hB] at h; exact absurd h (by decide)

theorem applyInstall_facts (ienv : InstallEnv) :
    ((applyInstall ienv
        ⟨Status.initializing, InstallStatus.notInstalled, 0⟩).1.status =
      Status.initializing
      ∧ ((applyInstall ienv
            ⟨Status.initializing, InstallStatus.notInstalled,
              0⟩).1.installStatus = InstallStatus.installed
        ∨ (applyInstall ienv
            ⟨Status.initializing, InstallStatus.notInstalled,
              0⟩).1.installStatus = InstallStatus.error))
    ∧ ∀ t ∈ (applyInstall ienv
        ⟨Status.initializing, InstallStatus.notInstalled, 0⟩).2,
        t.installStatus ≠ InstallStatus.unsupported
        ∧ t.status ≠ Status.running := by
  rcases install_statuses ienv with hi | hi | hi | hi <;>
    simp [applyInstall, hi]

theorem compat_facts (req : List Char) (vf : Option (List Char))
    (stop : Bool) :
    ((checkIsCompatibleVersion req vf stop
        ⟨Status.initializing, InstallStatus.installed, 0⟩).1 =
      ⟨Status.initializing, InstallStatus.installed, 0⟩
      ∨ (checkIsCompatibleVersion req vf stop
          ⟨Status.initializing, InstallStatus.installed, 0⟩).1 =
        ⟨Status.initializing, InstallStatus.notInstalled, 0⟩)
    ∧ ∀ t ∈ (checkIsCompatibleVersion req vf stop
        ⟨Status.initializing, InstallStatus.installed, 0⟩).2.1,
        t.installStatus ≠ InstallStatus.unsupported
        ∧ t.status ≠ Status.running := by
  rcases vf with _ | v
  · cases stop <;>
      simp [checkIsCompatibleVersion, shutdown, setStatus, setInstallStatus]
  · by_cases hc : isVersionCompatible v req
    · simp [checkIsCompatibleVersion, hc]
    · simp [checkIsCompatibleVersion, hc, setInstallStatus]

/-- C4 amended: in every reachable state, install status unsupported
implies lifecycle status unsupported; and in every state reached by a
local-mode run, lifecycle running implies install installed — but not in
general, because the non-local pass-through run reaches running while the
install status is still initializing. -/
theorem claim_C4_amended :
    ∀ (env : Env) (s : HState), s ∈ (doInit env).2 →
      (s.installStatus = InstallStatus.unsupported →
        s.status = Status.unsupported)
      ∧ (env.localMode = true → s.status = Status.running →
        s.installStatus = InstallStatus.installed) := by
  intro env s hs
  unfold doInit at hs
  by_cases hsup : env.isSupported = false
  · rw [if_pos hsup] at hs
    simp [initState, setStatus, setInstallStatus] at hs
    rcases hs with rfl | rfl | rfl <;>
      exact ⟨by decide, fun _ => by decide⟩
  · rw [if_neg hsup] at hs
    by_cases hloc : env.localMode = false
    · rw [if_pos hloc] at hs
      simp [initState, setStatus] at hs
      rcases hs with rfl | rfl <;>
        exact ⟨by decide, fun h => absurd (hloc.symm.trans h) (by decide)⟩
    · rw [if_neg hloc] at hs
      by_cases hdc : (env.dirOk && env.coreFound) = true
      · rw [if_pos hdc] at hs
        have hs1 : setInstallStatus initState InstallStatus.installed =
          (⟨Status.initializing, InstallStatus.installed, 0⟩,
            [Event.installChange InstallStatus.initializing
              InstallStatus.installed]) := by decide
        simp only [hs1] at hs
        simp at hs
        obtain ⟨hc1, hc2⟩ :=
          compat_facts env.required env.versionFile env.stopOk
        rcases hc1 with hc1 | hc1
        · rw [hc1] at hs
          simp at hs
          refine ⟨?_, fun _ => ?_⟩ <;>
          · have hp := doInitFinish_prop env
              ⟨Status.initializing, InstallStatus.installed, 0⟩ _ s rfl
              (Or.inl rfl) ?_ hs
            · first
                | exact hp.1
                | exact hp.2
            · intro t ht
              simp only [List.cons_append, List.nil_append, List.mem_cons,
                List.mem_append] at ht
              rcases ht with rfl | rfl | ht
              · exact ⟨by decide, by decide⟩
              · exact ⟨by decide, by decide⟩
              · exact hc2 t ht
        · rw [hc1] at hs
          simp at hs
          obtain ⟨⟨ha1, ha2⟩, ha3⟩ := applyInstall_facts env.installEnv
          refine ⟨?_, fun _ => ?_⟩ <;>
          · have hp := doInitFinish_prop env _ _ s ha1 ha2 ?_ hs
            · first
                | exact hp.1
                | exact hp.2
            · intro t ht
              simp only [List.cons_append, List.nil_append, List.mem_cons,
                List.mem_append] at ht
              rcases ht with rfl | rfl | ht | ht
              · exact ⟨by decide, by decide⟩
              · exact ⟨by decide, by decide⟩
              · exact hc2 t ht
              · exact ha3 t ht
      · rw [if_neg hdc] at hs
        have hs1 : setInstallStatus initState InstallStatus.notInstalled =
          (⟨Status.initializing, InstallStatus.notInstalled, 0⟩,
            [Event.installChange InstallStatus.initializing
              InstallStatus.notInstalled]) := by decide
        simp only [hs1] at hs
        simp at hs
        obtain ⟨⟨ha1, ha2⟩, ha3⟩ := applyInstall_facts env.installEnv
        refine ⟨?_, fun _ => ?_⟩ <;>
        · have hp := doInitFinish_prop env _ _ s ha1 ha2 ?_ hs
          · first
              | exact hp.1
              | exact hp.2
          · intro t ht
            simp only [List.cons_append, List.nil_append, List.mem_cons,
              List.mem_append] at ht
            rcases ht with rfl | rfl | ht
            · exact ⟨by decide, by decide⟩
            · exact ⟨by decide, by decide⟩
            · exact ha3 t ht

/-- Environment of a local run finding a compatible installed version and a
healthy server on the first probe. -/
def envLocalGood : Env :=
  ⟨true, true, true, true, "v1.0.0".data, some "v1.0.0".data, true,
    ⟨true, false, 0, false, 0, true, true,
      true, true, true, true, true, true, true, true⟩,
    fun _ => true⟩

theorem claim_C4_amended_witness :
    (⟨Status.running, InstallStatus.installed, 0⟩ : HState) ∈
      (doInit envLocalGood).2
    ∧ (((⟨Status.running, InstallStatus.installed, 0⟩ : HState).installStatus
          = InstallStatus.unsupported →
        (⟨Status.running, InstallStatus.installed, 0⟩ : HState).status =
          Status.unsupported)
      ∧ (envLocalGood.localMode = true →
        (⟨Status.running, InstallStatus.installed, 0⟩ : HState).status =
          Status.running →
        (⟨Status.running, InstallStatus.installed, 0⟩ : HState).installStatus
          = InstallStatus.installed)) :=
  ⟨by decide, claim_C4_amended envLocalGood
    ⟨Status.running, InstallStatus.installed, 0⟩ (by decide)⟩

end Haystack
